import Mathlib

/-!
Verification development for the Continuum FIFO wrapper (an Anchor/Solana
program, `continuum-wrapper/src/lib.rs` and `lib_v1.rs`) and its off-ledger
relayer (`continuum-relayer/src`).

Modelling conventions:
* `u64` values are embedded as `Nat` together with the invariant `< 2 ^ 64`;
  `u64` addition is wrapping (Rust release-profile arithmetic), written
  explicitly as `(a + b) % U64`.
* Solana public keys are embedded as their base58 strings (`Pubkey := String`);
  base58 decoding is injective, so string equality models key equality.
* External effects (the CPI into the venue program, the SPL-token revoke, RPC
  reads, the sled database insert) are modelled by injected outcome flags; the
  data handed to those calls is built faithfully from the source.
* Anchor transactions are atomic: a failed instruction leaves the ledger
  unchanged.  The ledger-level function `exec` applies a successful step and
  keeps the previous state on error.
-/

abbrev Pubkey := String

/-- Size of the `u64` value space; `u64` arithmetic is taken modulo `U64`. -/
def U64 : Nat := 2 ^ 64

/-- Little-endian byte encoding of a `u64` (Rust `u64::to_le_bytes`). -/
def u64ToLeBytes (n : Nat) : List Nat :=
  [n % 256, n / 256 % 256, n / 256 ^ 2 % 256, n / 256 ^ 3 % 256,
   n / 256 ^ 4 % 256, n / 256 ^ 5 % 256, n / 256 ^ 6 % 256, n / 256 ^ 7 % 256]

/-- Little-endian byte decoding of exactly eight bytes
(Rust `u64::from_le_bytes`); any other shape decodes to `0` (the callers
guard the length before calling it). -/
def u64FromLeBytes : List Nat → Nat
  | [b0, b1, b2, b3, b4, b5, b6, b7] =>
      b0 + 256 * b1 + 256 ^ 2 * b2 + 256 ^ 3 * b3 + 256 ^ 4 * b4 +
        256 ^ 5 * b5 + 256 ^ 6 * b6 + 256 ^ 7 * b7
  | _ => 0

/-- Little-endian byte encoding of a `u32` (Rust `u32::to_le_bytes`), used for
the Anchor `Vec<u8>` length field of the forwarded payload. -/
def u32ToLeBytes (n : Nat) : List Nat :=
  [n % 256, n / 256 % 256, n / 256 ^ 2 % 256, n / 256 ^ 3 % 256]

/-- Association-list lookup, the embedding of keyed account (and sled key)
lookups. -/
def alistLookup {α β : Type} [DecidableEq α] : List (α × β) → α → Option β
  | [], _ => none
  | (k, v) :: rest, a => if k = a then some v else alistLookup rest a

theorem u64_le_roundtrip (n : Nat) (h : n < U64) :
    u64FromLeBytes (u64ToLeBytes n) = n := by
  simp only [u64ToLeBytes, u64FromLeBytes, U64] at *
  norm_num at *
  omega

theorem u64ToLeBytes_length (n : Nat) : (u64ToLeBytes n).length = 8 := rfl

/-! ## On-chain wrapper program (`continuum-wrapper/src/lib.rs`) -/

/-- The ledger-resident FIFO counter account (`FifoState { seq: u64 }`). -/
structure FifoState where
  seq : Nat
deriving DecidableEq, Repr

/-- Per-pool authority record
(`PoolAuthorityState { pool_id, created_at, fifo_enforced }`). -/
structure PoolAuthorityState where
  pool_id : Pubkey
  created_at : Int
  fifo_enforced : Bool
deriving DecidableEq, Repr

/-- Program error outcomes.  `BadSeq` is the wrapper's own error code; the
failures of the two external CPIs (the venue invocation and the SPL-token
revoke) are modelled as the two remaining constructors. -/
inductive ErrorCode
  | BadSeq
  | CpiFailed
  | RevokeFailed
deriving DecidableEq, Repr

/-- Event emitted by `swap_with_pool_authority`
(`SwapEvent { seq, user, pool_id }`). -/
structure SwapEvent where
  seq : Nat
  user : Pubkey
  pool_id : Pubkey
deriving DecidableEq, Repr

/-- Event emitted by the v1 entry point `swap_with_seq`
(`SeqEvent { seq, user }`). -/
structure SeqEvent where
  seq : Nat
  user : Pubkey
deriving DecidableEq, Repr

/-- Seed identities with which `invoke_signed` authorizes the CPI: the
delegate PDA (seeds `["delegate", user_source]`) and the pool custody PDA
(seeds `["pool_authority", pool_id]`). -/
inductive SignerSeed
  | delegate (userSource : Pubkey)
  | poolAuthority (poolId : Pubkey)
deriving DecidableEq, Repr

/-- The CPI handed to `invoke_signed`: target program, raw instruction data
and the seed identities signing the call. -/
structure CpiCall where
  program_id : Pubkey
  data : List Nat
  signers : List SignerSeed
deriving DecidableEq, Repr

/-- Signer seed sets passed to `invoke_signed` by `swap_with_pool_authority`
(lines 65-81 of `lib.rs`): always both the delegate PDA and the pool custody
PDA, never conditioned on the record's `fifo_enforced` field. -/
def swapCpiSignerSeeds (userSource : Pubkey) (pa : PoolAuthorityState) :
    List SignerSeed :=
  [SignerSeed.delegate userSource, SignerSeed.poolAuthority pa.pool_id]

/-- Body of `initialize`: sets `seq = 0` on the freshly created account. -/
def initFifoState : FifoState := { seq := 0 }

/-- Body of `initialize_pool_authority`: records the pool id, the clock
timestamp, and unconditionally `fifo_enforced = true`. -/
def initialize_pool_authority (pool_id : Pubkey) (now : Int) :
    PoolAuthorityState :=
  { pool_id := pool_id, created_at := now, fifo_enforced := true }

/-- Instruction body of `swap_with_pool_authority` (lib.rs, lines 35-105).
Returns the Anchor result (new FIFO state and emitted event on success)
together with the CPI that was handed to `invoke_signed`, if execution
reached it.  `cpiOk` and `revokeOk` inject the outcomes of the two external
calls. -/
def swap_with_pool_authority (st : FifoState) (pa : PoolAuthorityState)
    (user userSource raydiumProgram : Pubkey) (seq : Nat)
    (raydium_ix_data : List Nat) (cpiOk revokeOk : Bool) :
    Except ErrorCode (FifoState × SwapEvent) × Option CpiCall :=
  if (st.seq + 1) % U64 ≠ seq then
    (Except.error ErrorCode.BadSeq, none)
  else
    let call : CpiCall :=
      { program_id := raydiumProgram, data := raydium_ix_data,
        signers := swapCpiSignerSeeds userSource pa }
    if cpiOk = false then
      (Except.error ErrorCode.CpiFailed, some call)
    else if revokeOk = false then
      (Except.error ErrorCode.RevokeFailed, some call)
    else
      (Except.ok ({ seq := seq },
        { seq := seq, user := user, pool_id := pa.pool_id }), some call)

/-- Instruction body of the v1 entry point `swap_with_seq`
(lib_v1.rs, lines 43-109): identical FIFO check and sequence advance, but the
CPI is signed with the delegate PDA alone. -/
def swap_with_seq (st : FifoState) (user userSource raydiumProgram : Pubkey)
    (seq : Nat) (raydium_ix_data : List Nat) (cpiOk revokeOk : Bool) :
    Except ErrorCode (FifoState × SeqEvent) × Option CpiCall :=
  if (st.seq + 1) % U64 ≠ seq then
    (Except.error ErrorCode.BadSeq, none)
  else
    let call : CpiCall :=
      { program_id := raydiumProgram, data := raydium_ix_data,
        signers := [SignerSeed.delegate userSource] }
    if cpiOk = false then
      (Except.error ErrorCode.CpiFailed, some call)
    else if revokeOk = false then
      (Except.error ErrorCode.RevokeFailed, some call)
    else
      (Except.ok ({ seq := seq }, { seq := seq, user := user }), some call)

/-! ### Ledger-level transition system for the wrapper program

One deployment owns a single `FifoState` account (seeds `"fifo_state"`) and
one `PoolAuthorityState` account per pool id.  Anchor `init` constraints make
account creation fail when the account already exists; a failed transaction
leaves the ledger unchanged. -/

structure Ledger where
  fifo : Option FifoState
  pools : List (Pubkey × PoolAuthorityState)
deriving DecidableEq, Repr

inductive Instr
  | initInstr
  | initPoolAuthority (pool_id : Pubkey) (now : Int)
  | swap (pool_id : Pubkey) (user userSource raydiumProgram : Pubkey)
      (seq : Nat) (raydium_ix_data : List Nat) (cpiOk revokeOk : Bool)
  | createPool
deriving DecidableEq, Repr

inductive StepErr
  | alreadyInitialized
  | notInitialized
  | poolAlreadyRegistered
  | poolNotRegistered
  | program (e : ErrorCode)
deriving DecidableEq, Repr

/-- One transaction against the wrapper program.  Account-constraint failures
(`init` on an existing account, loading a missing account) and program errors
all abort the transaction. -/
def step (l : Ledger) : Instr → Except StepErr (Ledger × List SwapEvent)
  | Instr.initInstr =>
      match l.fifo with
      | some _ => Except.error StepErr.alreadyInitialized
      | none => Except.ok ({ l with fifo := some initFifoState }, [])
  | Instr.initPoolAuthority pid now =>
      match alistLookup l.pools pid with
      | some _ => Except.error StepErr.poolAlreadyRegistered
      | none =>
          Except.ok
            ({ l with pools := (pid, initialize_pool_authority pid now) :: l.pools }, [])
  | Instr.swap pid user userSource rp seq ixd cpiOk revokeOk =>
      match l.fifo with
      | none => Except.error StepErr.notInitialized
      | some st =>
          match alistLookup l.pools pid with
          | none => Except.error StepErr.poolNotRegistered
          | some pa =>
              match (swap_with_pool_authority st pa user userSource rp seq ixd
                  cpiOk revokeOk).1 with
              | Except.error e => Except.error (StepErr.program e)
              | Except.ok (st2, ev) =>
                  Except.ok ({ l with fifo := some st2 }, [ev])
  | Instr.createPool => Except.ok (l, [])

/-- Atomic application of a transaction: on any error the ledger is
unchanged and no event is emitted. -/
def exec (l : Ledger) (i : Instr) : Ledger × List SwapEvent :=
  match step l i with
  | Except.error _ => (l, [])
  | Except.ok r => r

/-- Run a list of transactions, accumulating the emitted events. -/
def execTrace (l : Ledger) : List Instr → Ledger × List SwapEvent
  | [] => (l, [])
  | i :: rest =>
      let r1 := exec l i
      let r2 := execTrace r1.1 rest
      (r2.1, r1.2 ++ r2.2)

/-- The ledger before any instruction ran. -/
def initLedger : Ledger := { fifo := none, pools := [] }

/-- The ledger right after a successful `initialize`. -/
def ledger0 : Ledger := { fifo := some initFifoState, pools := [] }

/-! ## Off-ledger relayer (`continuum-relayer/src`) -/

/-- The sled key-value store, embedded as an association list from keys to
byte strings; `insert` prepends and `get` takes the most recent binding. -/
abbrev Db := List (String × List Nat)

def dbGet (db : Db) (k : String) : Option (List Nat) := alistLookup db k

def dbInsert (db : Db) (k : String) (v : List Nat) : Db := (k, v) :: db

/-- A swap request as received by the relayer (`SwapRequest` in `main.rs`),
with the pubkey fields already in their string form. -/
structure SwapRequest where
  user_pubkey : Pubkey
  pool_id : Pubkey
  amount_in : Nat
  minimum_amount_out : Nat
  token_a_account : Pubkey
  token_b_account : Pubkey
  is_a_to_b : Bool
deriving DecidableEq, Repr

/-- Relayer error taxonomy (`errors.rs`).  `load_pool_accounts` misses are
surfaced as `PoolNotFound` carrying the offending pool id (the code formats
it into an anyhow message `"Pool not found: {pool_id}"`). -/
inductive RelayerError
  | SequenceMismatch
  | PoolNotFound (pool_id : Pubkey)
  | RpcError (msg : String)
  | DatabaseError (msg : String)
  | InvalidRequest (msg : String)
  | TransactionFailed (msg : String)
deriving DecidableEq, Repr

/-- The relayer's sequence mirror (`sequence_tracker.rs`): the sled handle,
the in-memory cached sequence and the in-memory pending queue. -/
structure SequenceTracker where
  db : Db
  current_sequence : Nat
  pending_swaps : List (Nat × SwapRequest)
deriving DecidableEq, Repr

/-- Constructor `SequenceTracker::new`: reads key `"current_sequence"` from
the database; eight little-endian bytes decode the cached value, a missing
key yields `0`, a value of any other length fails the `try_into` conversion.
The pending queue always starts empty. -/
def SequenceTracker.new (db : Db) : Except RelayerError SequenceTracker :=
  match dbGet db "current_sequence" with
  | some bs =>
      if bs.length = 8 then
        Except.ok { db := db, current_sequence := u64FromLeBytes bs,
                    pending_swaps := [] }
      else
        Except.error (RelayerError.DatabaseError "stored sequence has wrong length")
  | none =>
      Except.ok { db := db, current_sequence := 0, pending_swaps := [] }

def get_current_sequence (t : SequenceTracker) : Except RelayerError Nat :=
  Except.ok t.current_sequence

/-- Accessor `get_next_sequence`: `self.current_sequence + 1` in `u64`
arithmetic. -/
def get_next_sequence (t : SequenceTracker) : Nat :=
  (t.current_sequence + 1) % U64

def get_pending_count (t : SequenceTracker) : Nat := t.pending_swaps.length

/-- Method `update_on_chain_sequence`: assigns the in-memory cached value
first, then persists it under key `"current_sequence"`.  `dbOk` injects the
outcome of the sled insert; on a failed insert the error is returned while
the in-memory assignment has already happened. -/
def update_on_chain_sequence (t : SequenceTracker) (seq : Nat) (dbOk : Bool) :
    SequenceTracker × Except RelayerError Unit :=
  let t1 := { t with current_sequence := seq }
  if dbOk then
    ({ t1 with db := dbInsert t1.db "current_sequence" (u64ToLeBytes seq) },
     Except.ok ())
  else
    (t1, Except.error (RelayerError.DatabaseError "insert failed"))

def add_pending_swap (t : SequenceTracker) (seq : Nat) (request : SwapRequest) :
    SequenceTracker :=
  { t with pending_swaps := t.pending_swaps ++ [(seq, request)] }

/-- Loop body of `get_ready_swaps`: pop-and-collect front entries while the
front's seq equals `next`, stopping at the first mismatch. -/
def drainFront (next : Nat) : List (Nat × SwapRequest) →
    List (Nat × SwapRequest) × List (Nat × SwapRequest)
  | [] => ([], [])
  | (s, r) :: rest =>
      if s = next then
        let d := drainFront next rest
        ((s, r) :: d.1, d.2)
      else
        ([], (s, r) :: rest)

/-- Method `get_ready_swaps`: releases the maximal front run of pending
entries whose seq equals `current_sequence + 1` (in `u64` arithmetic); the
comparison value is not re-derived after a pop, and `current_sequence`
itself is not modified. -/
def get_ready_swaps (t : SequenceTracker) :
    List (Nat × SwapRequest) × SequenceTracker :=
  let d := drainFront ((t.current_sequence + 1) % U64) t.pending_swaps
  (d.1, { t with pending_swaps := d.2 })

/-- Outcome of the RPC read of the on-chain `FifoState` account performed by
`process_pending_swaps` (`rpc_client.get_account`): either a failure or the
raw account bytes (8-byte Anchor discriminator followed by the `u64`). -/
inductive ChainRead
  | failed (msg : String)
  | okData (data : List Nat)
deriving DecidableEq, Repr

/-- Body of `process_pending_swaps` (`main.rs`, lines 206-221): a failed
account read aborts before touching the tracker; with at least 16 bytes of
account data, bytes 8..16 are decoded little-endian and handed to
`update_on_chain_sequence`; shorter data is ignored. -/
def process_pending_swaps (t : SequenceTracker) (read : ChainRead)
    (dbOk : Bool) : SequenceTracker × Except RelayerError Unit :=
  match read with
  | ChainRead.failed msg => (t, Except.error (RelayerError.RpcError msg))
  | ChainRead.okData data =>
      if 16 ≤ data.length then
        update_on_chain_sequence t (u64FromLeBytes ((data.drop 8).take 8)) dbOk
      else
        (t, Except.ok ())

/-! ### Static pool metadata and the swap executor -/

/-- Fixed account layout of the registered venue pool
(`RaydiumPoolAccounts` in `raydium_accounts.rs`). -/
structure RaydiumPoolAccounts where
  pool_id : Pubkey
  amm_authority : Pubkey
  amm_open_orders : Pubkey
  amm_target_orders : Pubkey
  pool_coin_token_account : Pubkey
  pool_pc_token_account : Pubkey
  serum_program_id : Pubkey
  serum_market : Pubkey
  serum_bids : Pubkey
  serum_asks : Pubkey
  serum_event_queue : Pubkey
  serum_coin_vault_account : Pubkey
  serum_pc_vault_account : Pubkey
  serum_vault_signer : Pubkey
deriving DecidableEq, Repr

def TOKEN_PROGRAM_ID : Pubkey := "TokenkegQfeZyiNwAJbNbGKPFXCWuBvf9Ss623VQ5DA"

def RAYDIUM_AMM_V4 : Pubkey := "HWy1jotHpo6UqeQxx49dpYYdQB8wj9Qk9MdxwjLvDHB8"

def CONTINUUM_PROGRAM_ID : Pubkey := "9Mp8VkLRUR1Gw6HSXmByjM4tqabaDnoTpDpbzMvsiQ2Y"

def CONT_MINT : Pubkey := "Fk3i45btpZTU1a1npiNvd7my7q67kNnPsYd11Qs98RJm"

def FIFO_MINT : Pubkey := "4QHAYf1fEfJA57WcEuN8FEZkWJiRx9G2uDNF5RQoKrzp"

def TEST_POOL_ID : Pubkey := "FWP3JA31eauPJA6RJftReaus3T75rUZc4xVCgGpz7CQQ"

/-- Method `to_account_metas`: the ordered venue account list (keys only). -/
def toAccountMetaKeys (p : RaydiumPoolAccounts)
    (user_source user_destination pool_authority : Pubkey) : List Pubkey :=
  [TOKEN_PROGRAM_ID,
   p.pool_id, p.amm_authority, p.amm_open_orders, p.amm_target_orders,
   p.pool_coin_token_account, p.pool_pc_token_account,
   p.serum_program_id, p.serum_market, p.serum_bids, p.serum_asks,
   p.serum_event_queue, p.serum_coin_vault_account, p.serum_pc_vault_account,
   p.serum_vault_signer,
   user_source, user_destination,
   pool_authority]

/-- Function `load_pool_accounts`: the static lookup table holds exactly one
registered pool; every other pool id yields `none`. -/
def load_pool_accounts (pool_id : Pubkey) : Option RaydiumPoolAccounts :=
  if pool_id = TEST_POOL_ID then
    some
      { pool_id := TEST_POOL_ID,
        amm_authority := "DbQqP6ehDYmeYjcBaMRuA8tAJY1EjDUz9DpwSLjaQqfC",
        amm_open_orders := "F1FaUZU9789aQxxZqKLqizUoNyazQxgHKw2bonADEbFs",
        amm_target_orders := "EuFFuq1RpVsBFbvnFS2Bgth9SNsxCN3AG4P1BUawR8yy",
        pool_coin_token_account := "GsACB9Gm6QJyBYCvv1B5TJdpYPJP5PsnF7UKuLDNZLd6",
        pool_pc_token_account := "BnCejGtupYD8kVpWF1E7xmFnHAK2kUmX4qvsJEiuVXjj",
        serum_program_id := "EoTcMgcDRTJVZDMZWBoU6rhYHZfkNTVEAfz3uUJRcYGj",
        serum_market := "HeAap3XbNZHBaHsv6A9FXmMLKN2zWinsPxVwJVBiRGPQ",
        serum_bids := "4soHYNjT3TXoibaLJQXNFQ1MJMoZRpFCx1pWLKJKC1Dh",
        serum_asks := "2s2SgtShuDtwviHVv2KYMtPs99scGGUXS1SwN83meprv",
        serum_event_queue := "HtGARZDjDyd9fR2AmvmVhr2xeoNVuxADj7DhsU1oREt",
        serum_coin_vault_account := "EqYU43ZTap2beYX8uptDn3Kn8d6jFyH6mb6udLrkv6EF",
        serum_pc_vault_account := "Dm6dhx94CyK5WWQ6YZxk8z3gp4WqKEwPrLEHEDBCcwyZ",
        serum_vault_signer := "DuhnGJky7vEzgZTz2F4cV4fDEw2n9QstLyww576J5qSV" }
  else
    none

/-- Deterministic PDA derivation (`Pubkey::find_program_address`), embedded
as an injective tagging of label and seed. -/
def derivePda (label : String) (seed : Pubkey) : Pubkey :=
  label ++ ":" ++ seed

/-- Method `build_raydium_swap_data`: the fixed 8-byte venue discriminator
followed by `amount_in` and `minimum_amount_out`, little-endian. -/
def RAYDIUM_SWAP_DISCRIMINATOR : List Nat := [248, 198, 158, 145, 225, 117, 135, 200]

def build_raydium_swap_data (amount_in minimum_amount_out : Nat) : List Nat :=
  RAYDIUM_SWAP_DISCRIMINATOR ++ u64ToLeBytes amount_in ++
    u64ToLeBytes minimum_amount_out

/-- Wrapper instruction data built by `build_swap_instruction`: the
`swap_with_pool_authority` discriminator, the sequence, then the forwarded
payload with its `u32` length field. -/
def WRAPPER_SWAP_DISCRIMINATOR : List Nat := [237, 180, 80, 103, 107, 172, 187, 137]

def build_wrapper_ix_data (sequence : Nat) (raydium_data : List Nat) : List Nat :=
  WRAPPER_SWAP_DISCRIMINATOR ++ u64ToLeBytes sequence ++
    u32ToLeBytes raydium_data.length ++ raydium_data

/-- Reply returned by a successful `execute_swap` (`SwapResponse` in
`main.rs`). -/
structure SwapResponse where
  signature : String
  sequence : Nat
  estimated_output : Nat
deriving DecidableEq, Repr

/-- One instruction of the transaction assembled by `execute_swap`. -/
inductive RelayInstruction
  | computeBudget (units : Nat)
  | approveChecked (source mint delegate owner : Pubkey) (amount decimals : Nat)
  | wrapperSwap (data : List Nat) (accountKeys : List Pubkey)
deriving DecidableEq, Repr

/-- The transaction handed to `send_and_confirm_transaction`. -/
structure SubmittedTx where
  instructions : List RelayInstruction
deriving DecidableEq, Repr

/-- Method `build_swap_instruction` (keys of the wrapper-specific account
list followed by the venue accounts). -/
def build_swap_instruction (_pool_id pool_authority_state pool_authority
    fifo_state user source destination delegate_authority : Pubkey)
    (amount_in minimum_amount_out sequence : Nat)
    (pool_accounts : RaydiumPoolAccounts) : RelayInstruction :=
  RelayInstruction.wrapperSwap
    (build_wrapper_ix_data sequence
      (build_raydium_swap_data amount_in minimum_amount_out))
    ([fifo_state, pool_authority_state, pool_authority, delegate_authority,
      user, source, destination, RAYDIUM_AMM_V4, TOKEN_PROGRAM_ID] ++
     toAccountMetaKeys pool_accounts source destination pool_authority)

/-- Method `SwapExecutor::execute_swap` (`swap_executor.rs`, lines 42-154).
Fallible external steps are injected: `blockhashOk` for the
`get_latest_blockhash` RPC and `sendOk` for transaction submission.  The
second component is the transaction handed to submission, `none` when
execution failed before submitting anything. -/
def execute_swap (t : SequenceTracker) (req : SwapRequest)
    (blockhashOk sendOk : Bool) :
    Except RelayerError SwapResponse × Option SubmittedTx :=
  let next_seq := get_next_sequence t
  match load_pool_accounts req.pool_id with
  | none => (Except.error (RelayerError.PoolNotFound req.pool_id), none)
  | some pool_accounts =>
      let source_account :=
        if req.is_a_to_b then req.token_a_account else req.token_b_account
      let dest_account :=
        if req.is_a_to_b then req.token_b_account else req.token_a_account
      let source_mint := if req.is_a_to_b then CONT_MINT else FIFO_MINT
      let delegate_authority := derivePda "delegate" source_account
      let fifo_state := derivePda "fifo_state" ""
      let pool_authority_state := derivePda "pool_authority_state" req.pool_id
      let pool_authority := derivePda "pool_authority" req.pool_id
      if blockhashOk = false then
        (Except.error (RelayerError.RpcError "get_latest_blockhash failed"), none)
      else
        let tx : SubmittedTx :=
          { instructions :=
              [RelayInstruction.computeBudget 600000,
               RelayInstruction.approveChecked source_account source_mint
                 delegate_authority req.user_pubkey req.amount_in 9,
               build_swap_instruction req.pool_id pool_authority_state
                 pool_authority fifo_state req.user_pubkey source_account
                 dest_account delegate_authority req.amount_in
                 req.minimum_amount_out next_seq pool_accounts] }
        if sendOk then
          (Except.ok { signature := "confirmed", sequence := next_seq,
                       estimated_output := req.minimum_amount_out }, some tx)
        else
          (Except.error (RelayerError.TransactionFailed "send failed"), some tx)

/-! ## Claim theorems -/

/-- C7: for all `u64` values, the forwarded venue payload built by
`build_raydium_swap_data` is exactly 24 bytes: the fixed 8-byte
discriminator, followed by the 8 little-endian bytes of `amount_in`,
followed by the 8 little-endian bytes of `minimum_amount_out`. -/
theorem raydium_swap_data_layout (amount_in minimum_amount_out : Nat) :
    (build_raydium_swap_data amount_in minimum_amount_out).length = 24 ∧
    (build_raydium_swap_data amount_in minimum_amount_out).take 8 =
      RAYDIUM_SWAP_DISCRIMINATOR ∧
    ((build_raydium_swap_data amount_in minimum_amount_out).drop 8).take 8 =
      u64ToLeBytes amount_in ∧
    (build_raydium_swap_data amount_in minimum_amount_out).drop 16 =
      u64ToLeBytes minimum_amount_out ∧
    RAYDIUM_SWAP_DISCRIMINATOR.length = 8 ∧
    (u64ToLeBytes amount_in).length = 8 ∧
    (u64ToLeBytes minimum_amount_out).length = 8 :=
  ⟨rfl, rfl, rfl, rfl, rfl, rfl, rfl⟩

/-- C8: the durable off-ledger state round-trips exactly the sequence
integer.  After a successful `update_on_chain_sequence s`, the database
holds the 8 little-endian bytes of `s` under key `"current_sequence"`, and a
`SequenceTracker` constructed over that database has cached sequence `s` and
an empty pending queue; over a database with no such key the cached sequence
is `0` and the queue is again empty. -/
theorem sequence_persistence_roundtrip :
    (∀ (t : SequenceTracker) (s : Nat), s < U64 →
      (update_on_chain_sequence t s true).2 = Except.ok () ∧
      dbGet (update_on_chain_sequence t s true).1.db "current_sequence" =
        some (u64ToLeBytes s) ∧
      (u64ToLeBytes s).length = 8 ∧
      SequenceTracker.new (update_on_chain_sequence t s true).1.db =
        Except.ok { db := (update_on_chain_sequence t s true).1.db,
                    current_sequence := s, pending_swaps := [] } ∧
      (∀ t2, SequenceTracker.new (update_on_chain_sequence t s true).1.db =
          Except.ok t2 →
        get_current_sequence t2 = Except.ok s ∧ get_pending_count t2 = 0)) ∧
    (∀ db : Db, dbGet db "current_sequence" = none →
      SequenceTracker.new db =
        Except.ok { db := db, current_sequence := 0, pending_swaps := [] }) := by
  constructor
  · intro t s hs
    have hnew : SequenceTracker.new (update_on_chain_sequence t s true).1.db =
        Except.ok { db := (update_on_chain_sequence t s true).1.db,
                    current_sequence := s, pending_swaps := [] } := by
      simp only [update_on_chain_sequence, dbInsert, SequenceTracker.new, dbGet,
        alistLookup, if_pos, u64ToLeBytes_length, if_true]
      rw [u64_le_roundtrip s hs]
    refine ⟨rfl, rfl, rfl, hnew, ?_⟩
    intro t2 h2
    rw [hnew] at h2
    cases h2
    exact ⟨rfl, rfl⟩
  · intro db hdb
    simp [SequenceTracker.new, hdb]

/-- Witness for C8, at `s = 5` over an empty database. -/
theorem sequence_persistence_roundtrip_witness :
    SequenceTracker.new
        (update_on_chain_sequence
          { db := [], current_sequence := 0, pending_swaps := [] } 5 true).1.db =
      Except.ok
        { db := (update_on_chain_sequence
            { db := [], current_sequence := 0, pending_swaps := [] } 5 true).1.db,
          current_sequence := 5, pending_swaps := [] } :=
  (sequence_persistence_roundtrip.1
    { db := [], current_sequence := 0, pending_swaps := [] } 5
    (by norm_num [U64])).2.2.2.1

/-- C10: `u64` wrap-around.  With the stored sequence at `2 ^ 64 - 1`, the
FIFO check of `swap_with_pool_authority` accepts exactly the argument `0`,
a successful call stores `0`, and the mirror's `get_next_sequence` likewise
returns `0` when the cached sequence is `2 ^ 64 - 1`. -/
theorem seq_wraparound_u64 :
    (∀ (pa : PoolAuthorityState) (u us rp : Pubkey) (ixd : List Nat) (a : Nat),
        a < U64 →
        ((swap_with_pool_authority { seq := U64 - 1 } pa u us rp a ixd
              true true).1 =
            Except.ok ({ seq := 0 },
              { seq := 0, user := u, pool_id := pa.pool_id })
          ↔ a = 0)) ∧
    (∀ (pa : PoolAuthorityState) (u us rp : Pubkey) (ixd : List Nat) (a : Nat)
        (cpiOk revokeOk : Bool), a ≠ 0 →
        (swap_with_pool_authority { seq := U64 - 1 } pa u us rp a ixd
            cpiOk revokeOk).1 = Except.error ErrorCode.BadSeq) ∧
    (∀ t : SequenceTracker, t.current_sequence = U64 - 1 →
        get_next_sequence t = 0) := by
  have hU : (U64 - 1 + 1) % U64 = 0 := by norm_num [U64]
  refine ⟨?_, ?_, ?_⟩
  · intro pa u us rp ixd a ha
    constructor
    · intro h
      by_contra hne
      have : (U64 - 1 + 1) % U64 ≠ a := by omega
      simp [swap_with_pool_authority, this] at h
    · intro h
      subst h
      simp [swap_with_pool_authority, hU]
  · intro pa u us rp ixd a cpiOk revokeOk ha
    have : (U64 - 1 + 1) % U64 ≠ a := by omega
    simp [swap_with_pool_authority, this]
  · intro t ht
    simp [get_next_sequence, ht, hU]

/-- Witness for C10 at the accepted argument `0` and a concrete tracker. -/
theorem seq_wraparound_u64_witness :
    ((swap_with_pool_authority { seq := U64 - 1 }
        (initialize_pool_authority "P" 0) "u" "s" "r" 0 [] true true).1 =
      Except.ok ({ seq := 0 }, { seq := 0, user := "u", pool_id := "P" })) ∧
    get_next_sequence
      { db := [], current_sequence := U64 - 1, pending_swaps := [] } = 0 :=
  ⟨(seq_wraparound_u64.1 (initialize_pool_authority "P" 0) "u" "s" "r" [] 0
      (by norm_num [U64])).mpr rfl,
   seq_wraparound_u64.2.2
     { db := [], current_sequence := U64 - 1, pending_swaps := [] } rfl⟩

/-- C1: the sequence-advance step succeeds exactly on the successor value.
For every state and `seq` argument, `swap_with_pool_authority` (and the v1
`swap_with_seq`) passes the FIFO check and ends with `state.seq = seq`
exactly when `seq` equals the stored sequence plus one (`u64` arithmetic);
any other value fails with `BadSeq` and leaves the stored sequence
unchanged (the whole transaction rolls back). -/
theorem swap_seq_advance_iff :
    ∀ (st : FifoState) (pa : PoolAuthorityState) (u us rp : Pubkey)
      (ixd : List Nat) (s : Nat),
      (((swap_with_pool_authority st pa u us rp s ixd true true).1 =
          Except.ok ({ seq := s },
            { seq := s, user := u, pool_id := pa.pool_id }))
        ↔ s = (st.seq + 1) % U64) ∧
      (((swap_with_seq st u us rp s ixd true true).1 =
          Except.ok ({ seq := s }, { seq := s, user := u }))
        ↔ s = (st.seq + 1) % U64) ∧
      (s ≠ (st.seq + 1) % U64 →
        ∀ cpiOk revokeOk,
          (swap_with_pool_authority st pa u us rp s ixd cpiOk revokeOk).1 =
            Except.error ErrorCode.BadSeq ∧
          (swap_with_seq st u us rp s ixd cpiOk revokeOk).1 =
            Except.error ErrorCode.BadSeq) ∧
      (∀ (l : Ledger) (pid : Pubkey) (cpiOk revokeOk : Bool),
          l.fifo = some st → alistLookup l.pools pid = some pa →
          s ≠ (st.seq + 1) % U64 →
          exec l (Instr.swap pid u us rp s ixd cpiOk revokeOk) = (l, [])) := by
  intro st pa u us rp ixd s
  by_cases hc : (st.seq + 1) % U64 = s
  · refine ⟨?_, ?_, ?_, ?_⟩
    · simp [swap_with_pool_authority, hc]
    · simp [swap_with_seq, hc]
    · intro hne
      exact absurd hc.symm hne
    · intro l pid cpiOk revokeOk _ _ hne
      exact absurd hc.symm hne
  · refine ⟨?_, ?_, ?_, ?_⟩
    · simp [swap_with_pool_authority, hc]
      omega
    · simp [swap_with_seq, hc]
      omega
    · intro _ cpiOk revokeOk
      constructor <;> simp [swap_with_pool_authority, swap_with_seq, hc]
    · intro l pid cpiOk revokeOk hf hp _
      simp [exec, step, hf, hp, swap_with_pool_authority, hc]

/-- Witness for C1: a successful advance from `seq = 0` with argument `1`,
and a rejected advance from `seq = 1` with argument `3` (the ledger is
unchanged and no event is emitted). -/
theorem swap_seq_advance_iff_witness :
    ((swap_with_pool_authority { seq := 0 } (initialize_pool_authority "P" 0)
        "u" "s" "r" 1 [] true true).1 =
      Except.ok ({ seq := 1 }, { seq := 1, user := "u", pool_id := "P" })) ∧
    exec
      { fifo := some { seq := 1 },
        pools := [("P", initialize_pool_authority "P" 0)] }
      (Instr.swap "P" "u" "s" "r" 3 [] true true) =
      ({ fifo := some { seq := 1 },
         pools := [("P", initialize_pool_authority "P" 0)] }, []) :=
  ⟨((swap_seq_advance_iff { seq := 0 } (initialize_pool_authority "P" 0)
      "u" "s" "r" [] 1).1).mpr (by norm_num [U64]),
   (swap_seq_advance_iff { seq := 1 } (initialize_pool_authority "P" 0)
      "u" "s" "r" [] 3).2.2.2
     { fifo := some { seq := 1 },
       pools := [("P", initialize_pool_authority "P" 0)] }
     "P" true true rfl (by simp [alistLookup]) (by norm_num [U64])⟩

/-- A pool authority record with custody disabled, as C3 hypothesizes for
pools not custody-controlled by the protocol.  No code path creates such a
record, but the swap instruction's behavior on it is well defined. -/
def paNoCustody : PoolAuthorityState :=
  { pool_id := "PoolX", created_at := 0, fifo_enforced := false }

/-- Counterexample to C3: on a record with `fifo_enforced = false` the venue
CPI is still signed with the pool custody authority in addition to the
delegate, not with the delegate alone. -/
theorem pool_authority_signer_cx :
    paNoCustody.fifo_enforced = false ∧
    (swap_with_pool_authority { seq := 0 } paNoCustody "u" "s" "r" 1 []
        true true).2 =
      some { program_id := "r", data := [],
             signers := [SignerSeed.delegate "s",
                         SignerSeed.poolAuthority "PoolX"] } ∧
    SignerSeed.poolAuthority "PoolX" ∈
      swapCpiSignerSeeds "s" paNoCustody := by
  refine ⟨rfl, ?_, by simp [swapCpiSignerSeeds, paNoCustody]⟩
  have hc : (0 + 1) % U64 = 1 := by norm_num [U64]
  simp [swap_with_pool_authority, swapCpiSignerSeeds, paNoCustody, hc]

/-- C3 amended: whenever `swap_with_pool_authority` reaches the venue CPI it
supplies both the delegate authority and the pool custody authority as
signers, for every pool record alike; the record's `fifo_enforced` field is
never consulted (the instruction's outcome is invariant under changing it).
Since `initialize_pool_authority` creates every record with
`fifo_enforced = true`, the custody signer is only ever exercised for
records with `fifo_enforced = true` on reachable ledgers. -/
theorem pool_authority_signer_amended :
    (∀ (st : FifoState) (pa : PoolAuthorityState) (u us rp : Pubkey)
        (s : Nat) (ixd : List Nat) (cpiOk revokeOk : Bool) (call : CpiCall),
        (swap_with_pool_authority st pa u us rp s ixd cpiOk revokeOk).2 =
          some call →
        call.signers =
          [SignerSeed.delegate us, SignerSeed.poolAuthority pa.pool_id]) ∧
    (∀ (st : FifoState) (pa : PoolAuthorityState) (b : Bool) (u us rp : Pubkey)
        (s : Nat) (ixd : List Nat) (cpiOk revokeOk : Bool),
        swap_with_pool_authority st { pa with fifo_enforced := b } u us rp s
            ixd cpiOk revokeOk =
          swap_with_pool_authority st pa u us rp s ixd cpiOk revokeOk) := by
  constructor
  · intro st pa u us rp s ixd cpiOk revokeOk call h
    by_cases hc : (st.seq + 1) % U64 ≠ s
    · simp [swap_with_pool_authority, hc] at h
    · cases cpiOk <;> cases revokeOk <;>
        simp [swap_with_pool_authority, hc, swapCpiSignerSeeds] at h <;>
        simp [← h]
  · intro st pa b u us rp s ixd cpiOk revokeOk
    by_cases hc : (st.seq + 1) % U64 ≠ s <;>
      cases cpiOk <;> cases revokeOk <;>
      simp [swap_with_pool_authority, hc, swapCpiSignerSeeds]

/-- Witness for C3 amended: a CPI reached with concrete inputs carries both
signer identities. -/
theorem pool_authority_signer_amended_witness :
    (swap_with_pool_authority { seq := 0 }
        (initialize_pool_authority "P" 0) "u" "s" "r" 1 [] true true).2 =
      some { program_id := "r", data := [],
             signers := [SignerSeed.delegate "s",
                         SignerSeed.poolAuthority "P"] } ∧
    [SignerSeed.delegate "s", SignerSeed.poolAuthority "P"] =
      [SignerSeed.delegate "s",
       SignerSeed.poolAuthority (initialize_pool_authority "P" 0).pool_id] := by
  have h : (swap_with_pool_authority { seq := 0 }
      (initialize_pool_authority "P" 0) "u" "s" "r" 1 [] true true).2 =
      some { program_id := "r", data := [],
             signers := [SignerSeed.delegate "s",
                         SignerSeed.poolAuthority "P"] } := by
    have hc : (0 + 1) % U64 = 1 := by norm_num [U64]
    simp [swap_with_pool_authority, swapCpiSignerSeeds,
      initialize_pool_authority, hc]
  refine ⟨h, ?_⟩
  have := pool_authority_signer_amended.1 { seq := 0 }
    (initialize_pool_authority "P" 0) "u" "s" "r" 1 [] true true _ h
  simpa using this.symm

/-- The drain loop of `get_ready_swaps` computes exactly the
`takeWhile`/`dropWhile` split of the queue at the fixed comparison value. -/
theorem drainFront_eq (next : Nat) (l : List (Nat × SwapRequest)) :
    drainFront next l =
      (l.takeWhile (fun p => p.1 == next),
       l.dropWhile (fun p => p.1 == next)) := by
  induction l with
  | nil => rfl
  | cons hd tl ih =>
      obtain ⟨s, r⟩ := hd
      by_cases h : s = next
      · simp [drainFront, h, ih]
      · simp [drainFront, h]

/-- Request used in the Scenario D instance (its payload fields are
irrelevant to the queue logic). -/
def reqA : SwapRequest :=
  { user_pubkey := "alice", pool_id := TEST_POOL_ID, amount_in := 100,
    minimum_amount_out := 90, token_a_account := "ataA",
    token_b_account := "ataB", is_a_to_b := true }

/-- Second request of the Scenario D instance. -/
def reqB : SwapRequest := { reqA with amount_in := 200 }

/-- The Scenario D mirror: cached sequence `1`, queue `[(2,A),(3,B)]`. -/
def scenarioDTracker : SequenceTracker :=
  { db := [], current_sequence := 1, pending_swaps := [(2, reqA), (3, reqB)] }

/-- Counterexample to C4: with the cached sequence at `2 ^ 64 - 1`, the
comparison value `cached + 1` wraps to `0`, so `get_ready_swaps` releases a
front entry whose seq is `0 ≤ cached`, contradicting the claim that no
returned entry ever has `seq ≤ cached_seq`. -/
theorem drain_ready_wrap_cx :
    (get_ready_swaps
        { db := [], current_sequence := U64 - 1,
          pending_swaps := [(0, reqA)] }).1 = [(0, reqA)] ∧
    (0 : Nat) ≤ U64 - 1 := by
  constructor
  · have h : (U64 - 1 + 1) % U64 = 0 := by norm_num [U64]
    simp [get_ready_swaps, drainFront, h]
  · exact Nat.zero_le _

/-- C4 amended: `get_ready_swaps` returns exactly the maximal front run of
queue entries whose seq equals `(cached + 1) mod 2 ^ 64`, in queue order,
removing them and stopping at the first differing front entry; the cached
sequence itself is not modified.  Every returned entry has seq equal to
`(cached + 1) mod 2 ^ 64`, which exceeds `cached` whenever
`cached + 1 < 2 ^ 64`; at `cached = 2 ^ 64 - 1` entries with seq `0` are
released instead.  The Scenario D instance holds as stated. -/
theorem drain_ready_front_run_amended :
    (∀ t : SequenceTracker,
        (get_ready_swaps t).1 =
          t.pending_swaps.takeWhile
            (fun p => p.1 == (t.current_sequence + 1) % U64) ∧
        (get_ready_swaps t).2.pending_swaps =
          t.pending_swaps.dropWhile
            (fun p => p.1 == (t.current_sequence + 1) % U64) ∧
        (get_ready_swaps t).2.current_sequence = t.current_sequence ∧
        (∀ e ∈ (get_ready_swaps t).1, e.1 = (t.current_sequence + 1) % U64)) ∧
    (∀ t : SequenceTracker, t.current_sequence + 1 < U64 →
        ∀ e ∈ (get_ready_swaps t).1, t.current_sequence < e.1) ∧
    ((get_ready_swaps scenarioDTracker).1 = [(2, reqA)] ∧
      (get_ready_swaps scenarioDTracker).2.pending_swaps = [(3, reqB)]) := by
  have main : ∀ t : SequenceTracker,
      (get_ready_swaps t).1 =
        t.pending_swaps.takeWhile
          (fun p => p.1 == (t.current_sequence + 1) % U64) ∧
      (get_ready_swaps t).2.pending_swaps =
        t.pending_swaps.dropWhile
          (fun p => p.1 == (t.current_sequence + 1) % U64) ∧
      (get_ready_swaps t).2.current_sequence = t.current_sequence ∧
      (∀ e ∈ (get_ready_swaps t).1, e.1 = (t.current_sequence + 1) % U64) := by
    intro t
    have h := drainFront_eq ((t.current_sequence + 1) % U64) t.pending_swaps
    refine ⟨by simp [get_ready_swaps, h], by simp [get_ready_swaps, h],
      by simp [get_ready_swaps], ?_⟩
    intro e he
    rw [show (get_ready_swaps t).1 = (drainFront ((t.current_sequence + 1) % U64)
      t.pending_swaps).1 from rfl, h] at he
    have := List.mem_takeWhile_imp he
    simpa using this
  refine ⟨main, ?_, ?_⟩
  · intro t ht e he
    have h1 := (main t).2.2.2 e he
    rw [Nat.mod_eq_of_lt ht] at h1
    omega
  · have h2 : ((scenarioDTracker.current_sequence + 1) % U64) = 2 := by
      norm_num [scenarioDTracker, U64]
    constructor
    · rw [(main scenarioDTracker).1, h2]
      simp [scenarioDTracker, reqA, reqB]
    · rw [(main scenarioDTracker).2.1, h2]
      simp [scenarioDTracker, reqA, reqB]

/-- Witness for C4 amended: the Scenario D instance, obtained by applying
the theorem at the concrete tracker. -/
theorem drain_ready_front_run_amended_witness :
    (get_ready_swaps scenarioDTracker).1 =
      scenarioDTracker.pending_swaps.takeWhile
        (fun p => p.1 == (scenarioDTracker.current_sequence + 1) % U64) ∧
    scenarioDTracker.current_sequence <
      (2, reqA).1 ∧
    (get_ready_swaps scenarioDTracker).1 = [(2, reqA)] :=
  ⟨(drain_ready_front_run_amended.1 scenarioDTracker).1,
   drain_ready_front_run_amended.2.1 scenarioDTracker
     (by norm_num [scenarioDTracker, U64]) (2, reqA)
     (by rw [drain_ready_front_run_amended.2.2.1]; exact List.mem_singleton.mpr rfl),
   drain_ready_front_run_amended.2.2.1⟩

/-- Account bytes whose payload (bytes 8..16) encodes the sequence `7`. -/
def data7 : List Nat := List.replicate 8 0 ++ u64ToLeBytes 7

/-- A mirror with cached sequence `5`. -/
def tracker5 : SequenceTracker :=
  { db := [], current_sequence := 5, pending_swaps := [] }

/-- Counterexample to C5: a refresh whose database write fails returns an
error, yet the in-memory cached sequence has already moved from `5` to the
newly observed `7` — the cached value is not left equal to its previous
value. -/
theorem refresh_db_failure_cx :
    tracker5.current_sequence = 5 ∧
    (process_pending_swaps tracker5 (ChainRead.okData data7) false).2 =
      Except.error (RelayerError.DatabaseError "insert failed") ∧
    (process_pending_swaps tracker5 (ChainRead.okData data7) false).1.current_sequence
      = 7 := by
  refine ⟨rfl, ?_, ?_⟩ <;>
    simp [process_pending_swaps, update_on_chain_sequence, tracker5, data7,
      u64ToLeBytes, u64FromLeBytes]

/-- C5 amended: a refresh that fails at the ledger read leaves the whole
mirror untouched; a refresh that fails at the database write inside
`update_on_chain_sequence` surfaces the error, but the in-memory cached
sequence has already been assigned the newly observed on-chain value (only
the durable copy is left stale); account data too short to decode leaves the
mirror untouched and reports success. -/
theorem refresh_failure_amended :
    (∀ (t : SequenceTracker) (msg : String) (dbOk : Bool),
        process_pending_swaps t (ChainRead.failed msg) dbOk =
          (t, Except.error (RelayerError.RpcError msg))) ∧
    (∀ (t : SequenceTracker) (data : List Nat), data.length < 16 →
        ∀ dbOk, process_pending_swaps t (ChainRead.okData data) dbOk =
          (t, Except.ok ())) ∧
    (∀ (t : SequenceTracker) (data : List Nat), 16 ≤ data.length →
        (process_pending_swaps t (ChainRead.okData data) false).2 =
          Except.error (RelayerError.DatabaseError "insert failed") ∧
        (process_pending_swaps t (ChainRead.okData data) false).1.current_sequence
          = u64FromLeBytes ((data.drop 8).take 8) ∧
        (process_pending_swaps t (ChainRead.okData data) false).1.db = t.db ∧
        (process_pending_swaps t (ChainRead.okData data) false).1.pending_swaps
          = t.pending_swaps) := by
  refine ⟨fun t msg dbOk => rfl, ?_, ?_⟩
  · intro t data hlen dbOk
    have : ¬ 16 ≤ data.length := by omega
    simp [process_pending_swaps, this]
  · intro t data hlen
    refine ⟨?_, ?_, ?_, ?_⟩ <;>
      simp [process_pending_swaps, update_on_chain_sequence, hlen]

/-- Witness for C5 amended: concrete failed ledger read, concrete short
data, and the concrete database-write failure of the counterexample input. -/
theorem refresh_failure_amended_witness :
    process_pending_swaps tracker5 (ChainRead.failed "offline") true =
      (tracker5, Except.error (RelayerError.RpcError "offline")) ∧
    process_pending_swaps tracker5 (ChainRead.okData [1, 2, 3]) true =
      (tracker5, Except.ok ()) ∧
    (process_pending_swaps tracker5 (ChainRead.okData data7) false).1.current_sequence
      = u64FromLeBytes ((data7.drop 8).take 8) :=
  ⟨refresh_failure_amended.1 tracker5 "offline" true,
   refresh_failure_amended.2.1 tracker5 [1, 2, 3] (by norm_num) true,
   (refresh_failure_amended.2.2 tracker5 data7 (by norm_num [data7, u64ToLeBytes])).2.1⟩

/-- C6: a swap request whose pool id is not registered fails with the
pool-not-found error before any transaction is submitted (hence before any
spend permission is granted, the approval being an instruction of the
submitted transaction); exactly the registered pool id passes the lookup,
and for it execution proceeds past this check — the result is never the
pool-not-found error. -/
theorem pool_not_found_guard :
    (∀ (t : SequenceTracker) (req : SwapRequest) (blockhashOk sendOk : Bool),
        load_pool_accounts req.pool_id = none →
        execute_swap t req blockhashOk sendOk =
          (Except.error (RelayerError.PoolNotFound req.pool_id), none)) ∧
    (∀ pid : Pubkey, load_pool_accounts pid = none ↔ pid ≠ TEST_POOL_ID) ∧
    (∀ (t : SequenceTracker) (req : SwapRequest) (blockhashOk sendOk : Bool),
        req.pool_id = TEST_POOL_ID →
        load_pool_accounts req.pool_id ≠ none ∧
        (execute_swap t req blockhashOk sendOk).1 ≠
          Except.error (RelayerError.PoolNotFound req.pool_id)) := by
  refine ⟨?_, ?_, ?_⟩
  · intro t req blockhashOk sendOk h
    simp [execute_swap, h]
  · intro pid
    constructor
    · intro h hpid
      simp [load_pool_accounts, hpid] at h
    · intro h
      simp [load_pool_accounts, h]
  · intro t req blockhashOk sendOk h
    constructor
    · simp [load_pool_accounts, h]
    · cases hl : load_pool_accounts req.pool_id with
      | none => simp [load_pool_accounts, h] at hl
      | some pa =>
          cases blockhashOk <;> cases sendOk <;>
            simp [execute_swap, hl]

/-- Witness for C6: an unregistered pool id is rejected with no submitted
transaction, and a request for the registered pool is not rejected by the
pool check. -/
theorem pool_not_found_guard_witness :
    execute_swap tracker5 { reqA with pool_id := "unregistered" } true true =
      (Except.error (RelayerError.PoolNotFound "unregistered"), none) ∧
    (execute_swap tracker5 reqA true true).1 ≠
      Except.error (RelayerError.PoolNotFound reqA.pool_id) :=
  ⟨pool_not_found_guard.1 tracker5 { reqA with pool_id := "unregistered" }
      true true (by simp [load_pool_accounts, TEST_POOL_ID]),
   (pool_not_found_guard.2.2 tracker5 reqA true true rfl).2⟩

/-- Shape of a successful `swap_with_pool_authority` result: the stored
sequence and the emitted event both carry the `u64` successor of the
previous sequence. -/
theorem swap_wpa_ok_shape {st : FifoState} {pa : PoolAuthorityState}
    {u us rp : Pubkey} {s : Nat} {ixd : List Nat} {cpiOk revokeOk : Bool}
    {st2 : FifoState} {ev : SwapEvent}
    (h : (swap_with_pool_authority st pa u us rp s ixd cpiOk revokeOk).1 =
      Except.ok (st2, ev)) :
    st2 = { seq := (st.seq + 1) % U64 } ∧
    ev = { seq := (st.seq + 1) % U64, user := u, pool_id := pa.pool_id } := by
  by_cases hc : (st.seq + 1) % U64 = s
  · subst hc
    cases cpiOk <;> cases revokeOk <;>
      simp [swap_with_pool_authority] at h
    exact ⟨h.1.symm, h.2.symm⟩
  · have hc2 : (st.seq + 1) % U64 ≠ s := hc
    simp [swap_with_pool_authority, hc2] at h

/-- Every executed instruction either leaves the FIFO account untouched and
emits nothing, or emits exactly one event carrying the `u64` successor of
the stored sequence, which it also stores. -/
theorem exec_fifo_cases (l : Ledger) (i : Instr) (st : FifoState)
    (h : l.fifo = some st) :
    ((exec l i).2 = [] ∧ (exec l i).1.fifo = some st) ∨
    (∃ u p, (exec l i).2 = [⟨(st.seq + 1) % U64, u, p⟩] ∧
      (exec l i).1.fifo = some { seq := (st.seq + 1) % U64 }) := by
  cases i with
  | initInstr => left; simp [exec, step, h]
  | initPoolAuthority pid now =>
      cases hl : alistLookup l.pools pid <;> left <;> simp [exec, step, hl, h]
  | createPool => left; simp [exec, step, h]
  | swap pid u us rp s ixd cpiOk revokeOk =>
      cases hl : alistLookup l.pools pid with
      | none => left; simp [exec, step, hl, h]
      | some pa =>
          cases hr : (swap_with_pool_authority st pa u us rp s ixd
              cpiOk revokeOk).1 with
          | error e => left; simp [exec, step, hl, h, hr]
          | ok val =>
              obtain ⟨st2, ev⟩ := val
              obtain ⟨h1, h2⟩ := swap_wpa_ok_shape hr
              subst h1; subst h2
              right
              exact ⟨u, pa.pool_id, by simp [exec, step, hl, h, hr],
                by simp [exec, step, hl, h, hr]⟩

/-- The event history of any trace started on a ledger whose FIFO value is
`m % 2 ^ 64` is, for some `k`, the list of the `u64` values
`m+1, m+2, ..., m+k`, and the final FIFO value is `(m + k) % 2 ^ 64`. -/
theorem execTrace_history (t : List Instr) :
    ∀ (l : Ledger) (m : Nat), l.fifo = some { seq := m % U64 } →
    ∃ k, (execTrace l t).1.fifo = some { seq := (m + k) % U64 } ∧
      (execTrace l t).2.map SwapEvent.seq =
        (List.range' (m + 1) k).map (· % U64) := by
  induction t with
  | nil =>
      intro l m h
      exact ⟨0, by simpa [execTrace] using h, by simp [execTrace]⟩
  | cons i rest ih =>
      intro l m h
      rcases exec_fifo_cases l i _ h with ⟨h1, h2⟩ | ⟨u, p, h1, h2⟩
      · obtain ⟨k, hk1, hk2⟩ := ih (exec l i).1 m h2
        exact ⟨k, by simpa [execTrace] using hk1,
          by simp [execTrace, h1, hk2]⟩
      · have hmod : (m % U64 + 1) % U64 = (m + 1) % U64 := Nat.mod_add_mod m U64 1
        have h2' : (exec l i).1.fifo = some { seq := (m + 1) % U64 } := by
          rw [h2, hmod]
        obtain ⟨k, hk1, hk2⟩ := ih (exec l i).1 (m + 1) h2'
        refine ⟨k + 1, ?_, ?_⟩
        · rw [show m + (k + 1) = m + 1 + k by omega]
          simpa [execTrace] using hk1
        · rw [show (execTrace l (i :: rest)).2 =
            (exec l i).2 ++ (execTrace (exec l i).1 rest).2 from rfl]
          rw [h1, List.range'_succ (m + 1) k 1]
          simp [hk2, hmod]

/-- Lists whose every element is unchanged by reduction modulo `U64` are
fixed by the corresponding map. -/
theorem map_mod_eq_self {l : List Nat} (h : ∀ x ∈ l, x % U64 = x) :
    l.map (· % U64) = l := by
  induction l with
  | nil => rfl
  | cons hd tl ih =>
      rw [List.map_cons, h hd (List.mem_cons_self hd tl),
        ih fun x hx => h x (List.mem_cons_of_mem hd hx)]

/-- Counterexample to C2: with the stored sequence at `2 ^ 64 - 1` a swap
succeeds with argument `0` and stores `0`, so the stored sequence does not
increase by exactly one (`0 ≠ (2 ^ 64 - 1) + 1`). -/
theorem swap_seq_increment_cx :
    (swap_with_pool_authority { seq := U64 - 1 }
        (initialize_pool_authority "PoolX" 0) "u" "s" "r" 0 [] true true).1 =
      Except.ok ({ seq := 0 }, { seq := 0, user := "u", pool_id := "PoolX" }) ∧
    (0 : Nat) ≠ (U64 - 1) + 1 := by
  constructor
  · have hU : (U64 - 1 + 1) % U64 = 0 := by norm_num [U64]
    simp [swap_with_pool_authority, initialize_pool_authority, hU]
  · norm_num [U64]

/-- C2 amended: every successful swap stores the `u64` successor
`(seq_before + 1) mod 2 ^ 64`, which equals `seq_before + 1` whenever no
wrap occurs; and starting from the initialized state, every trace yields,
for some `k`, the event history `u64`-reduced from `1, 2, ..., k` and the
stored value `k mod 2 ^ 64` — in particular, as long as `k < 2 ^ 64` the
history is exactly `1, 2, ..., k`, gapless and duplicate-free. -/
theorem swap_seq_history_amended :
    (∀ (st : FifoState) (pa : PoolAuthorityState) (u us rp : Pubkey)
        (ixd : List Nat) (s : Nat) (cpiOk revokeOk : Bool)
        (st2 : FifoState) (ev : SwapEvent),
        (swap_with_pool_authority st pa u us rp s ixd cpiOk revokeOk).1 =
          Except.ok (st2, ev) →
        st2.seq = (st.seq + 1) % U64 ∧
        (st.seq + 1 < U64 → st2.seq = st.seq + 1)) ∧
    (∀ t : List Instr, ∃ k,
        (execTrace ledger0 t).1.fifo = some { seq := k % U64 } ∧
        (execTrace ledger0 t).2.map SwapEvent.seq =
          (List.range' 1 k).map (· % U64) ∧
        (k < U64 →
          (execTrace ledger0 t).2.map SwapEvent.seq = List.range' 1 k ∧
          ((execTrace ledger0 t).2.map SwapEvent.seq).Nodup)) := by
  constructor
  · intro st pa u us rp ixd s cpiOk revokeOk st2 ev h
    obtain ⟨h1, _⟩ := swap_wpa_ok_shape h
    subst h1
    exact ⟨rfl, fun hlt => Nat.mod_eq_of_lt hlt⟩
  · intro t
    have h0 : ledger0.fifo = some { seq := 0 % U64 } := by
      simp [ledger0, initFifoState]
    obtain ⟨k, hk1, hk2⟩ := execTrace_history t ledger0 0 h0
    refine ⟨k, by simpa using hk1, by simpa using hk2, ?_⟩
    intro hklt
    have hfix : (List.range' 1 k).map (· % U64) = List.range' 1 k := by
      apply map_mod_eq_self
      intro x hx
      have := List.mem_range'_1.mp hx
      exact Nat.mod_eq_of_lt (by omega)
    have hhist : (execTrace ledger0 t).2.map SwapEvent.seq = List.range' 1 k := by
      rw [show ((execTrace ledger0 t).2.map SwapEvent.seq) =
        (List.range' 1 k).map (· % U64) by simpa using hk2, hfix]
    exact ⟨hhist, by rw [hhist]; exact List.nodup_range' 1 k 1 (by norm_num)⟩

/-- Witness for C2 amended: a concrete successful swap from `seq = 0`
stores `1 = 0 + 1`. -/
theorem swap_seq_history_amended_witness :
    ({ seq := 1 } : FifoState).seq =
      (({ seq := 0 } : FifoState).seq + 1) % U64 ∧
    (({ seq := 0 } : FifoState).seq + 1 < U64 →
      ({ seq := 1 } : FifoState).seq = ({ seq := 0 } : FifoState).seq + 1) :=
  swap_seq_history_amended.1 { seq := 0 } (initialize_pool_authority "P" 0)
    "u" "s" "r" [] 1 true true { seq := 1 }
    { seq := 1, user := "u", pool_id := "P" }
    (by
      have hU : (0 + 1) % U64 = 1 := by norm_num [U64]
      simp [swap_with_pool_authority, initialize_pool_authority, hU])

/-! ### Immutability of pool authority records -/

theorem alistLookup_mem {α β : Type} [DecidableEq α] (l : List (α × β))
    (a : α) (b : β) (h : alistLookup l a = some b) : (a, b) ∈ l := by
  induction l with
  | nil => simp [alistLookup] at h
  | cons hd tl ih =>
      obtain ⟨k, v⟩ := hd
      by_cases hk : k = a
      · subst hk
        simp [alistLookup] at h
        subst h
        exact List.mem_cons_self _ _
      · simp [alistLookup, hk] at h
        exact List.mem_cons_of_mem _ (ih h)

/-- Every executed instruction either leaves the pool record list unchanged
or prepends one freshly initialized record for a previously unregistered
pool id; existing records are never removed or rewritten. -/
theorem exec_pools_cases (l : Ledger) (i : Instr) :
    (exec l i).1.pools = l.pools ∨
    (∃ pid now, alistLookup l.pools pid = none ∧
      (exec l i).1.pools =
        (pid, initialize_pool_authority pid now) :: l.pools) := by
  cases i with
  | initInstr => cases h : l.fifo <;> left <;> simp [exec, step, h]
  | createPool => left; simp [exec, step]
  | initPoolAuthority pid now =>
      cases h : alistLookup l.pools pid with
      | some pa => left; simp [exec, step, h]
      | none => exact Or.inr ⟨pid, now, h, by simp [exec, step, h]⟩
  | swap pid u us rp s ixd cpiOk revokeOk =>
      left
      cases hf : l.fifo with
      | none => simp [exec, step, hf]
      | some st =>
          cases hl : alistLookup l.pools pid with
          | none => simp [exec, step, hf, hl]
          | some pa =>
              cases hr : (swap_with_pool_authority st pa u us rp s ixd
                  cpiOk revokeOk).1 with
              | error e => simp [exec, step, hf, hl, hr]
              | ok val =>
                  obtain ⟨st2, ev⟩ := val
                  simp [exec, step, hf, hl, hr]

theorem exec_pools_lookup_preserved (l : Ledger) (i : Instr) (pid : Pubkey)
    (pa : PoolAuthorityState) (h : alistLookup l.pools pid = some pa) :
    alistLookup (exec l i).1.pools pid = some pa := by
  rcases exec_pools_cases l i with hp | ⟨pid2, now, hn, hp⟩
  · rw [hp]; exact h
  · rw [hp]
    by_cases he : pid2 = pid
    · subst he
      rw [hn] at h
      simp at h
    · simp [alistLookup, he, h]

/-- All records on the pool list have `fifo_enforced = true`. -/
def poolsAllEnforced (l : Ledger) : Prop :=
  ∀ p ∈ l.pools, p.2.fifo_enforced = true

theorem exec_poolsAllEnforced (l : Ledger) (i : Instr)
    (h : poolsAllEnforced l) : poolsAllEnforced (exec l i).1 := by
  rcases exec_pools_cases l i with hp | ⟨pid, now, _, hp⟩
  · intro p hm; rw [hp] at hm; exact h p hm
  · intro p hm
    rw [hp] at hm
    rcases List.mem_cons.mp hm with h1 | h1
    · subst h1; rfl
    · exact h p h1

theorem execTrace_poolsAllEnforced (t : List Instr) :
    ∀ l, poolsAllEnforced l → poolsAllEnforced (execTrace l t).1 := by
  induction t with
  | nil => intro l h; simpa [execTrace] using h
  | cons i rest ih =>
      intro l h
      have := ih (exec l i).1 (exec_poolsAllEnforced l i h)
      simpa [execTrace] using this

/-- C9: every pool authority record ever created has
`fifo_enforced = true` — `initialize_pool_authority` unconditionally sets it
for every pool id, every record reachable by any instruction trace from the
empty ledger carries it, and no instruction ever mutates an existing
record. -/
theorem pool_records_always_fifo_enforced :
    (∀ (pid : Pubkey) (now : Int),
        (initialize_pool_authority pid now).fifo_enforced = true) ∧
    (∀ (t : List Instr) (pid : Pubkey) (pa : PoolAuthorityState),
        alistLookup (execTrace initLedger t).1.pools pid = some pa →
        pa.fifo_enforced = true) ∧
    (∀ (l : Ledger) (i : Instr) (pid : Pubkey) (pa : PoolAuthorityState),
        alistLookup l.pools pid = some pa →
        alistLookup (exec l i).1.pools pid = some pa) := by
  refine ⟨fun pid now => rfl, ?_, exec_pools_lookup_preserved⟩
  intro t pid pa h
  have henf : poolsAllEnforced (execTrace initLedger t).1 :=
    execTrace_poolsAllEnforced t initLedger
      (by intro p hm; simp [initLedger] at hm)
  exact henf (pid, pa) (alistLookup_mem _ _ _ h)

/-- Witness for C9: the record created for pool `"P"` by a concrete trace
has `fifo_enforced = true`, and survives a further instruction unchanged. -/
theorem pool_records_always_fifo_enforced_witness :
    (initialize_pool_authority "P" 0).fifo_enforced = true ∧
    alistLookup
        (exec { fifo := none, pools := [("P", initialize_pool_authority "P" 0)] }
          Instr.createPool).1.pools "P" =
      some (initialize_pool_authority "P" 0) :=
  ⟨pool_records_always_fifo_enforced.2.1 [Instr.initPoolAuthority "P" 0] "P"
      (initialize_pool_authority "P" 0) (by decide),
   pool_records_always_fifo_enforced.2.2
      { fifo := none, pools := [("P", initialize_pool_authority "P" 0)] }
      Instr.createPool "P" (initialize_pool_authority "P" 0)
      (by simp [alistLookup])⟩
